import Mathlib

/-!
A shallow embedding of the `sqlite-prepare` query-builder library
(`build`, `raw`, `fragment`, `insert`/`into`, `validate`, `parseValue`)
and proofs about it.  JavaScript values that may flow through the public
entry points are modelled by the closed inductive type `Value`; JS numbers
are modelled by `Int` (no claim depends on float behaviour); the optional
`params` field of a raw marker is modelled by `Option (List Param)` so that
an absent field (`raw("x")`) and a present one (`raw("x", [p])`) stay
distinguishable, exactly as in the source, where `v.params || []` reads an
absent field as `[]`.
-/

namespace SqlitePrepare

/-- Bind-parameter values: the `SQLParam` union of the source
(string, number, boolean, null, Date, byte buffer).  `date` carries the
epoch milliseconds, `blob` the bytes; their host-side text renderings are
abstracted by model functions below and no claim depends on them. -/
inductive Param where
  | str (s : String)
  | int (n : Int)
  | bool (b : Bool)
  | null
  | date (t : Int)
  | blob (bs : List Nat)
deriving DecidableEq, Repr

/-- RawSQL marker: `\x7b __raw: true, query, params? \x7d`.  `params := none`
models the absent field produced by `raw(text)` and by the templated form. -/
structure RawSQL where
  query : String
  params : Option (List Param)
deriving DecidableEq, Repr

/-- FragmentSQL marker: `\x7b __fragment: true, query, params \x7d`. -/
structure FragmentSQL where
  query : String
  params : List Param
deriving DecidableEq, Repr

/-- SQLQuery: the `\x7b query, params \x7d` pair returned by `build`; a value
of this shape interpolated into a template is treated as a subquery. -/
structure SQLQuery where
  query : String
  params : List Param
deriving DecidableEq, Repr

/-- JavaScript values reaching the library's entry points, as a closed
tagged variant (the modelling the spec itself prescribes for a typed
reimplementation): scalars, `null`/`undefined`, Date and byte-buffer
instances, arrays, plain objects (assumed not to carry the `__raw` /
`__fragment` tags nor both `query` and `params` keys, which the source
detects structurally and which the marker constructors model instead),
and the three marker shapes. -/
inductive Value where
  | str (s : String)
  | int (n : Int)
  | bool (b : Bool)
  | null
  | undef
  | date (t : Int)
  | blob (bs : List Nat)
  | arr (es : List Value)
  | obj (fields : List (String × Value))
  | rawV (r : RawSQL)
  | fragV (f : FragmentSQL)
  | queryV (q : SQLQuery)

/-- Result type of `parseValue`: either a plain bind parameter or one of the
three marker shapes (`__raw`, `__fragment`, `__subquery`). -/
inductive Parsed where
  | param (p : Param)
  | rawP (query : String) (params : Option (List Param))
  | fragP (query : String) (params : List Param)
  | subq (query : String) (params : List Param)
deriving DecidableEq, Repr

/-- Model of the host's rendering of a Date in string concatenation /
JSON.  Abstracted: no claim depends on the concrete text. -/
def dateToString (t : Int) : String := "Date(" ++ toString t ++ ")"

/-- Escape of one character inside a JSON string literal (quote and
backslash; control characters do not occur in the model's strings). -/
def jsonEscapeChar (c : Char) : String :=
  if c = '"' ∨ c = '\\' then "\\" ++ c.toString else c.toString

/-- JSON string literal for `s`: source of the `JSON.stringify` model. -/
def jsonQuote (s : String) : String :=
  "\"" ++ String.join (s.data.map jsonEscapeChar) ++ "\""

/-- Join of a list of strings with a separator, as `Array.prototype.join`. -/
def joinSep (sep : String) : List String → String
  | [] => ""
  | [s] => s
  | s :: ss => s ++ sep ++ joinSep sep ss

mutual

/-- Model of `JSON.stringify` on the value grammar, used by `parseValue`
for plain objects and arrays.  `undefined` inside an array serializes as
`null` and a field holding `undefined` is omitted, as in the host; the
marker cases cannot reach this function from `parseValue` (the tag checks
come first) and are given their tag-free object rendering. -/
def jsonStringify : Value → String
  | .str s => jsonQuote s
  | .int n => toString n
  | .bool b => Bool.rec "false" "true" b
  | .null => "null"
  | .undef => "null"
  | .date t => jsonQuote (dateToString t)
  | .blob _ => "\x7b\x7d"
  | .arr es => "[" ++ joinSep "," (jsonArrayItems es) ++ "]"
  | .obj fs => "\x7b" ++ joinSep "," (jsonObjectFields fs) ++ "\x7d"
  | .rawV r => "\x7b" ++ jsonQuote "query" ++ ":" ++ jsonQuote r.query ++ "\x7d"
  | .fragV f => "\x7b" ++ jsonQuote "query" ++ ":" ++ jsonQuote f.query ++ "\x7d"
  | .queryV q => "\x7b" ++ jsonQuote "query" ++ ":" ++ jsonQuote q.query ++ "\x7d"
termination_by structural v => v

/-- JSON renderings of array elements (an `undefined` element is `null`,
handled by `jsonStringify` itself). -/
def jsonArrayItems : List Value → List String
  | [] => []
  | e :: es => jsonStringify e :: jsonArrayItems es
termination_by structural l => l

/-- JSON `"key":value` renderings of object fields (an `undefined` field
is omitted). -/
def jsonObjectFields : List (String × Value) → List String
  | [] => []
  | (_, .undef) :: fs => jsonObjectFields fs
  | (k, v) :: fs => (jsonQuote k ++ ":" ++ jsonStringify v) :: jsonObjectFields fs
termination_by structural l => l

end

/-- Embedding of `parseValue` (src/query-builder/parseValue.ts): null and
undefined coerce to the null parameter; Date and byte buffers pass through
unchanged; a `__raw`-tagged object returns a raw marker carrying the
object's `query` and (possibly absent) `params`; a `__fragment`-tagged
object is returned as-is; an object with both `query` and `params` members
becomes a subquery marker; any other object (or array) is serialized to
its JSON text; remaining primitives pass through unchanged. -/
def parseValue : Value → Parsed
  | .null => .param .null
  | .undef => .param .null
  | .date t => .param (.date t)
  | .blob bs => .param (.blob bs)
  | .rawV r => .rawP r.query r.params
  | .fragV f => .fragP f.query f.params
  | .queryV q => .subq q.query q.params
  | .obj fs => .param (.str (jsonStringify (.obj fs)))
  | .arr es => .param (.str (jsonStringify (.arr es)))
  | .str s => .param (.str s)
  | .int n => .param (.int n)
  | .bool b => .param (.bool b)

/-- Embedding of the flattening lambda appearing twice in `build`
(`.flatMap(v => ... marker ? v.params || [] : [v])`): a marker contributes
its parameter list (absent read as empty), anything else one slot. -/
def markerFlat : Parsed → List Param
  | .param p => [p]
  | .rawP _ ps => ps.getD []
  | .fragP _ ps => ps
  | .subq _ ps => ps

/-- Emission of the "Regular object - use parseValue" sub-branch of
`build`'s template loop: a marker result splices its `query` verbatim
(note: no parentheses even for a subquery marker in this sub-branch) and
contributes its params; otherwise a single `?` and one param.  In the
model the marker results are unreachable here (the outer structural checks
catch them first), exactly as in the source. -/
def emitParsed : Parsed → String × List Param
  | .rawP q ps => (q, ps.getD [])
  | .fragP q ps => (q, ps)
  | .subq q ps => (q, ps)
  | .param p => ("?", [p])

/-- Per-value emission of `build`'s template loop (appended text,
contributed params), mirroring the source's dispatch order:
arrays first (empty → literal `(NULL)`, non-empty → parenthesized
comma-space-joined `?` per element with flattened element params), then
`__raw`/`__fragment` markers (text verbatim, params appended), then
query-shaped values (parenthesized, params appended), then other objects
via `parseValue`, and finally regular values (`?` plus the coerced
parameter; `null` and `undefined` coerce to the null parameter). -/
def emitValue : Value → String × List Param
  | .arr [] => ("(NULL)", [])
  | .arr (e :: es) =>
      ("(" ++ joinSep ", " ((e :: es).map fun _ => "?") ++ ")",
       ((e :: es).map parseValue).flatMap markerFlat)
  | .rawV r => (r.query, r.params.getD [])
  | .fragV f => (f.query, f.params)
  | .queryV q => ("(" ++ q.query ++ ")", q.params)
  | .obj fs => emitParsed (parseValue (.obj fs))
  | .date t => emitParsed (parseValue (.date t))
  | .blob bs => emitParsed (parseValue (.blob bs))
  | .str s => ("?", [.str s])
  | .int n => ("?", [.int n])
  | .bool b => ("?", [.bool b])
  | .null => ("?", [.null])
  | .undef => ("?", [.null])

/-- Embedding of `build`'s template loop: for each index `i` append
`strings[i]`, then, when `i < values.length`, the emission of `values[i]`.
Trailing segments beyond the values are appended verbatim; trailing values
beyond the segments are dropped, as in the source's `for` bound. -/
def buildLoop : List String → List Value → String × List Param
  | [], _ => ("", [])
  | s :: ss, [] => (s ++ (buildLoop ss []).1, (buildLoop ss []).2)
  | s :: ss, v :: vs =>
      (s ++ (emitValue v).1 ++ (buildLoop ss vs).1,
       (emitValue v).2 ++ (buildLoop ss vs).2)

/-- Argument shape of `build` / `fragment`: a single literal string, or the
template-literal segments array. -/
inductive BuildArg where
  | str (s : String)
  | template (segs : List String)

/-- Embedding of `build` (src/query-builder/build.ts): the single-string
shape returns the string verbatim with the trailing values individually
coerced and marker-flattened; the template shape walks segments and values
through `buildLoop`. -/
def build : BuildArg → List Value → SQLQuery
  | .str s, values =>
      { query := s, params := (values.map parseValue).flatMap markerFlat }
  | .template segs, values =>
      let r := buildLoop segs values
      { query := r.1, params := r.2 }

/-- Embedding of `raw`'s regular (non-template) call shape: `raw(text)` and
`raw(text, params)`; `values[0] || []` reads a missing params argument as
empty and the `params` field is only set when non-empty. -/
def raw (value : String) (params : Option (List Param) := none) : RawSQL :=
  let ps := params.getD []
  { query := value, params := if ps.length > 0 then some ps else none }

mutual

/-- Model of JavaScript string coercion (`'' + v`) for the value grammar,
used by the templated form of `raw`. -/
def jsString : Value → String
  | .str s => s
  | .int n => toString n
  | .bool b => Bool.rec "false" "true" b
  | .null => "null"
  | .undef => "undefined"
  | .date t => dateToString t
  | .blob bs => joinSep "," (bs.map fun b => toString b)
  | .arr es => joinSep "," (jsArrayItems es)
  | .obj _ => "[object Object]"
  | .rawV _ => "[object Object]"
  | .fragV _ => "[object Object]"
  | .queryV _ => "[object Object]"
termination_by structural v => v

/-- Array elements under string coercion, joined by commas in `jsString`:
`null` and `undefined` render as empty, as `Array.prototype.toString`. -/
def jsArrayItems : List Value → List String
  | [] => []
  | .null :: es => "" :: jsArrayItems es
  | .undef :: es => "" :: jsArrayItems es
  | e :: es => jsString e :: jsArrayItems es
termination_by structural l => l

end

/-- Text built by `raw`'s templated form: for each segment index, the
segment followed by the value at that index coerced to a string
(`undefined`, including out-of-range, contributes the empty string);
values are inlined as literal text, never placeholder-ized. -/
def rawTemplateText : List String → List Value → String
  | [], _ => ""
  | s :: ss, [] => s ++ rawTemplateText ss []
  | s :: ss, .undef :: vs => s ++ rawTemplateText ss vs
  | s :: ss, v :: vs => s ++ jsString v ++ rawTemplateText ss vs

/-- Embedding of `raw`'s tagged-template call shape: concatenates segments
and stringified values as literal text; the result carries no params. -/
def rawTemplate (strings : List String) (values : List Value) : RawSQL :=
  { query := rawTemplateText strings values, params := none }

/-- Embedding of `fragment`: delegates to `build` and wraps the resulting
text and params with the fragment tag. -/
def fragment (strings : BuildArg) (values : List Value) : FragmentSQL :=
  let result := build strings values
  { query := result.query, params := result.params }

/-- Logical error kinds of the library (spec names; the source raises plain
`Error`s carrying the corresponding messages). -/
inductive SQLError where
  | emptyInput
  | disallowed (query : String)
  | invalidQuery (query : String)
deriving DecidableEq, Repr

/-- Embedding of `into`: the identity on the table name. -/
def into (table : String) : String := table

/-- Row objects: association lists in key-insertion order (a JS object's
`Object.keys` order for string keys). -/
abbrev Row : Type := List (String × Value)

/-- Argument shape of `insert`'s second parameter: a single row object or
an array of rows (the source distinguishes them with `Array.isArray`). -/
inductive RowsArg where
  | one (row : Row)
  | many (rows : List Row)

/-- Cell read of `insert`: `col in row ? row[col] : null` (first matching
key; a JS object cannot hold a key twice). -/
def rowGet (row : Row) (col : String) : Value :=
  match row.find? (fun kv => kv.1 = col) with
  | some kv => kv.2
  | none => .null

/-- Accumulation step of the column `Set`: a key joins the list the first
time it is seen. -/
def addKey (acc : List String) (k : String) : List String :=
  if k ∈ acc then acc else acc ++ [k]

/-- Columns of an insert: every row's keys added in scan order to an
insertion-ordered set. -/
def collectColumns (rows : List Row) : List String :=
  rows.foldl (fun acc row => (row.map Prod.fst).foldl addKey acc) []

/-- Per-cell emission of `insert` (cell text, pushed params): raw and
fragment markers splice their text verbatim and push their params
(`val.params || []` for raw), a subquery marker splices parenthesized and
pushes its params, anything else becomes a `?` with the cell's coerced
value pushed. -/
def insertCell : Parsed → String × List Param
  | .rawP q ps => (q, ps.getD [])
  | .fragP q ps => (q, ps)
  | .subq q ps => ("(" ++ q ++ ")", ps)
  | .param p => ("?", [p])

/-- Cells of one row of `insert`, in the shared column order, each coerced
through `parseValue` with `null` substituted for a missing key. -/
def insertRowCells (columnsList : List String) (row : Row) : List (String × List Param) :=
  columnsList.map fun col => insertCell (parseValue (rowGet row col))

/-- Embedding of `insert` (src/query-builder/insert.ts): a lone row is
wrapped into a one-element array; an empty row array is an error
(`EmptyInputError`); otherwise the column list is collected across all
rows, every row is padded and coerced, each row becomes a parenthesized
comma-joined cell group, and the params are pushed in traversal order —
row-major, shared column order.  The thrown error is modelled by
`Except.error`. -/
def insert (table : String) (values : RowsArg) : Except SQLError FragmentSQL :=
  let valuesArray := match values with
    | .one r => [r]
    | .many rs => rs
  match valuesArray with
  | [] => .error .emptyInput
  | _ :: _ =>
    let columnsList := collectColumns valuesArray
    let rowCells := valuesArray.map (insertRowCells columnsList)
    let rowPlaceholders := joinSep ", " (rowCells.map fun cells =>
      "(" ++ joinSep ", " (cells.map Prod.fst) ++ ")")
    let params := rowCells.flatMap fun cells => cells.flatMap Prod.snd
    .ok { query := "INSERT INTO " ++ table ++ " (" ++ joinSep ", " columnsList
                    ++ ") VALUES " ++ rowPlaceholders,
          params := params }

/-- Validation rules of `validate`: an allow-list of query strings, a
single-parameter predicate over the text, or a two-parameter predicate
over the marker and a flag (the source tells the two function shapes apart
by arity; the closed variant models the same dispatch, and the source's
final "Invalid validator type" branch is unreachable over it). -/
inductive ValidatorRule where
  | allowList (qs : List String)
  | strPred (p : String → Bool)
  | rawPred (p : RawSQL → Bool → Bool)

/-- Embedding of `validate` (validate.ts): a string input is first
normalized through `raw`; an allow-list rule is a membership test of the
marker's text, failing with `DisallowedQueryError` carrying the rejected
text; a one-parameter predicate sees the original string when a string was
given and the marker's text otherwise; a two-parameter predicate sees the
marker and `true`; success returns the normalized marker. -/
def validate (input : Sum String RawSQL) (validator : ValidatorRule) :
    Except SQLError RawSQL :=
  let rawSql := match input with
    | .inl s => raw s
    | .inr r => r
  match validator with
  | .allowList qs =>
      if qs.contains rawSql.query then .ok rawSql
      else .error (.disallowed rawSql.query)
  | .strPred p =>
      match input with
      | .inl s => if p s then .ok rawSql else .error (.invalidQuery s)
      | .inr _ =>
          if p rawSql.query then .ok rawSql
          else .error (.invalidQuery rawSql.query)
  | .rawPred p =>
      if p rawSql true then .ok rawSql
      else .error (.invalidQuery rawSql.query)

/-!
Spec-side definitions: these follow the spec's words (placeholder counting,
first-seen column union, literal interleaving, input normalization) and are
compared with the embedded code in the theorems below.
-/

/-- Number of positional `?` placeholders appearing in a query text. -/
def qCount (s : String) : Nat := s.data.count '?'

/-- Parameter contribution of one array element in `build`'s array rule:
its coercion's marker-params when it coerces to a marker, else the single
coerced value. -/
def elemParams (e : Value) : List Param := markerFlat (parseValue e)

/-- Side conditions under which an interpolated value keeps the
placeholder/parameter invariant: a raw, fragment or subquery value's text
must contain exactly as many `?` as its own parameter list has entries
(the absent raw params field reading as empty), and every element of an
array value must contribute exactly one parameter; every other value kind
always keeps the invariant. -/
def wellFormedValue : Value → Prop
  | .rawV r => qCount r.query = (r.params.getD []).length
  | .fragV f => qCount f.query = f.params.length
  | .queryV q => qCount q.query = q.params.length
  | .arr es => ∀ e ∈ es, (elemParams e).length = 1
  | _ => True

/-- First occurrence of each string, in first-seen order: the spec's
"union of all keys across all rows, in first-seen order". -/
def firstSeen : List String → List String
  | [] => []
  | k :: ks => k :: (firstSeen ks).filter (fun j => j != k)

/-- Column list of an insert as the spec words it: the first-seen union of
the rows' keys, scanning rows in order and each row's keys in order. -/
def specInsertColumns (rows : List Row) : List String :=
  firstSeen (rows.flatMap fun r => r.map Prod.fst)

/-- Concatenation of literal segments with the rendered values inlined
between them, as the spec words the templated `raw` form. -/
def interleave : List String → List String → String
  | [], _ => ""
  | s :: ss, [] => s ++ interleave ss []
  | s :: ss, t :: ts => s ++ t ++ interleave ss ts

/-- Normalization applied by `validate` to its input: a string is wrapped
through `raw`, a marker passes unchanged. -/
def normalizeInput : Sum String RawSQL → RawSQL
  | .inl s => raw s
  | .inr r => r

/-! Helper lemmas. -/

theorem qCount_append (s t : String) : qCount (s ++ t) = qCount s + qCount t := by
  simp [qCount, String.data_append, List.count_append]

theorem qCount_join_marks (l : List Value) :
    qCount (joinSep ", " (l.map fun _ => "?")) = l.length := by
  induction l with
  | nil => rfl
  | cons e es ih =>
    cases es with
    | nil => rfl
    | cons e2 es2 =>
      have h1 : qCount "?" = 1 := rfl
      have h2 : qCount ", " = 0 := rfl
      simp only [List.map_cons, joinSep, qCount_append, List.length_cons] at ih ⊢
      omega

theorem flatMap_length_of_one {α β : Type} (l : List α) (f : α → List β)
    (h : ∀ x ∈ l, (f x).length = 1) : (l.flatMap f).length = l.length := by
  induction l with
  | nil => rfl
  | cons x xs ih =>
    simp only [List.flatMap_cons, List.length_append, List.length_cons]
    rw [h x (List.mem_cons_self x xs), ih fun y hy => h y (List.mem_cons_of_mem x hy)]
    omega

theorem emitValue_balanced (v : Value) (h : wellFormedValue v) :
    qCount (emitValue v).1 = (emitValue v).2.length := by
  cases v with
  | arr es =>
    cases es with
    | nil => rfl
    | cons e es =>
      have h' : ∀ x ∈ e :: es, (markerFlat (parseValue x)).length = 1 := h
      have h0 : qCount "(" = 0 := rfl
      have h1 : qCount ")" = 0 := rfl
      simp only [emitValue, qCount_append, qCount_join_marks, List.flatMap_map, h0, h1]
      rw [flatMap_length_of_one (e :: es) (fun x => markerFlat (parseValue x)) h']
      omega
  | rawV r => exact h
  | fragV f => exact h
  | queryV q =>
    simpa [emitValue, qCount_append, qCount] using h
  | _ => rfl

theorem buildLoop_balanced : ∀ (segs : List String) (vs : List Value),
    (∀ s ∈ segs, qCount s = 0) → (∀ v ∈ vs, wellFormedValue v) →
    qCount (buildLoop segs vs).1 = (buildLoop segs vs).2.length := by
  intro segs
  induction segs with
  | nil => intro vs _ _; rfl
  | cons s ss ih =>
    intro vs hseg hval
    have hs : qCount s = 0 := hseg s (List.mem_cons_self s ss)
    have hss : ∀ t ∈ ss, qCount t = 0 := fun t ht => hseg t (List.mem_cons_of_mem s ht)
    cases vs with
    | nil =>
      simpa [buildLoop, qCount_append, hs] using ih [] hss (by simp)
    | cons v vs =>
      have hv : wellFormedValue v := hval v (List.mem_cons_self v vs)
      have hvs : ∀ w ∈ vs, wellFormedValue w := fun w hw => hval w (List.mem_cons_of_mem v hw)
      simp only [buildLoop, qCount_append, List.length_append, hs,
        emitValue_balanced v hv, ih vs hss hvs]
      omega

theorem buildLoop_append : ∀ (ss1 : List String) (vs1 : List Value)
    (ss2 : List String) (vs2 : List Value), ss1.length = vs1.length →
    buildLoop (ss1 ++ ss2) (vs1 ++ vs2)
      = ((buildLoop ss1 vs1).1 ++ (buildLoop ss2 vs2).1,
         (buildLoop ss1 vs1).2 ++ (buildLoop ss2 vs2).2) := by
  intro ss1
  induction ss1 with
  | nil =>
    intro vs1 ss2 vs2 h
    cases vs1 with
    | nil => simp [buildLoop]
    | cons v vs1 => simp at h
  | cons s ss ih =>
    intro vs1 ss2 vs2 h
    cases vs1 with
    | nil => simp at h
    | cons v vs1 =>
      simp only [List.length_cons, Nat.succ.injEq] at h
      simp only [List.cons_append, buildLoop, List.append_eq]
      rw [ih vs1 ss2 vs2 h]
      simp [String.append_assoc, List.append_assoc]

/-!
Claim theorems.
-/

/-- C3.  For every call of `build` in the single-string shape, the returned
query text is that string and the returned parameter list is the trailing
values each individually coerced through `parseValue`, a value coercing to
a Raw, Fragment or Subquery marker contributing that marker's own
parameter list (an absent raw params field reading as empty) in place of
the single value. -/
theorem C3_single_string_shape : ∀ (s : String) (vs : List Value),
    build (.str s) vs
      = { query := s, params := vs.flatMap fun v => markerFlat (parseValue v) } := by
  intro s vs
  simp [build, List.flatMap_map]

/-- C9.  `insert` fails with the `EmptyInputError` exactly when given the
empty array of rows (a lone row object is wrapped into a one-element array
and can never be empty), and that is its only error: in every other case a
fragment is produced.  The synchronous throw of the source is modelled by
`Except.error`, so no fragment exists on the error path. -/
theorem C9_insert_empty_error : ∀ (t : String) (arg : RowsArg),
    (insert t arg = .error .emptyInput ↔ arg = RowsArg.many [])
    ∧ (∀ e, insert t arg = .error e → e = SQLError.emptyInput) := by
  intro t arg
  cases arg with
  | one r => simp [insert]
  | many rows =>
    cases rows with
    | nil => simp [insert]
    | cons r rs => simp [insert]

/-- C10.  For every table name and single row object, `insert table row`
succeeds and returns a fragment structurally equal to
`insert table [row]`. -/
theorem C10_insert_single_row : ∀ (t : String) (r : Row),
    insert t (.one r) = insert t (.many [r])
    ∧ ∃ fr, insert t (.one r) = .ok fr := by
  intro t r
  exact ⟨rfl, ⟨_, rfl⟩⟩

/-- C1 (counterexample).  The claim's invariant fails as stated: a Raw
marker whose text itself contains a `?` is spliced verbatim with no
parameter, so `build` on the template `WHERE ${raw("x > ?")}` returns a
text with one `?` and an empty parameter list. -/
theorem C1_counterexample :
    qCount (build (.template ["WHERE ", ""]) [.rawV (raw "x > ?")]).query
      ≠ (build (.template ["WHERE ", ""]) [.rawV (raw "x > ?")]).params.length := by
  decide

/-- C1 (amended).  For a template in the interleaved shape whose literal
segments contain no `?` and whose interpolated values are all well-formed
(each Raw/Fragment/Subquery value's text has exactly as many `?` as its
own parameter list, and each array element contributes exactly one
parameter), the number of `?` in the output text equals the length of the
output parameter list; the second conjunct applies the same balance to
every aligned prefix of the walk, which is the positional content of "the
i-th placeholder binds to params[i]": after each step the placeholders
emitted so far equal the parameters appended so far. -/
theorem C1_amended_placeholder_invariant : ∀ (segs : List String) (vs : List Value),
    (∀ s ∈ segs, qCount s = 0) → (∀ v ∈ vs, wellFormedValue v) →
    qCount (build (.template segs) vs).query = (build (.template segs) vs).params.length
    ∧ ∀ n, qCount (buildLoop (segs.take n) (vs.take n)).1
        = (buildLoop (segs.take n) (vs.take n)).2.length := by
  intro segs vs hseg hval
  refine ⟨buildLoop_balanced segs vs hseg hval, fun n => ?_⟩
  exact buildLoop_balanced _ _
    (fun s hs => hseg s (List.mem_of_mem_take hs))
    (fun v hv => hval v (List.mem_of_mem_take hv))

/-- C1 (witness).  The amended invariant at a concrete template mixing a
scalar and an array value: two placeholders from the array plus one from
the scalar, three parameters. -/
theorem C1_amended_witness :
    (∀ s ∈ (["a = ", " AND b IN ", ""] : List String), qCount s = 0)
    ∧ (∀ v ∈ ([.int 5, .arr [.int 1, .int 2]] : List Value), wellFormedValue v)
    ∧ qCount (build (.template ["a = ", " AND b IN ", ""])
          [.int 5, .arr [.int 1, .int 2]]).query
        = (build (.template ["a = ", " AND b IN ", ""])
            [.int 5, .arr [.int 1, .int 2]]).params.length := by
  have h1 : ∀ s ∈ (["a = ", " AND b IN ", ""] : List String), qCount s = 0 := by decide
  have h2 : ∀ v ∈ ([.int 5, .arr [.int 1, .int 2]] : List Value), wellFormedValue v := by
    intro v hv
    simp only [List.mem_cons, List.not_mem_nil, or_false] at hv
    rcases hv with rfl | rfl
    · trivial
    · intro e he
      simp only [List.mem_cons, List.not_mem_nil, or_false] at he
      rcases he with rfl | rfl <;> rfl
  exact ⟨h1, h2,
    (C1_amended_placeholder_invariant ["a = ", " AND b IN ", ""]
      [.int 5, .arr [.int 1, .int 2]] h1 h2).1⟩

/-- C2 (counterexample).  A non-empty array of length one whose element is
a marker does not contribute exactly one parameter: `[raw("NOW()")]` still
yields one `?` placeholder but contributes zero parameters. -/
theorem C2_counterexample :
    (build (.template ["SELECT * FROM t WHERE ts IN ", ""])
        [.arr [.rawV (raw "NOW()")]]).query
      = "SELECT * FROM t WHERE ts IN (?)"
    ∧ (build (.template ["SELECT * FROM t WHERE ts IN ", ""])
        [.arr [.rawV (raw "NOW()")]]).params = []
    ∧ (build (.template ["SELECT * FROM t WHERE ts IN ", ""])
        [.arr [.rawV (raw "NOW()")]]).params.length ≠ 1 := by
  exact ⟨by decide, by decide, by decide⟩

/-- C2 (amended).  A non-empty array value of length k interpolated into a
template appends an opening parenthesis, exactly k `?` placeholders joined
by comma-space, and a closing parenthesis; the contributed parameters are,
in element order, each element's coerced contribution — a marker element's
own parameter list rather than one slot for itself — and therefore number
exactly k whenever every element contributes exactly one parameter (in
particular whenever no element coerces to a marker). -/
theorem C2_amended_array_expansion : ∀ (ss1 : List String) (s : String)
    (ss2 : List String) (vs1 vs2 : List Value) (e : Value) (es : List Value),
    ss1.length = vs1.length →
    build (.template (ss1 ++ s :: ss2)) (vs1 ++ .arr (e :: es) :: vs2)
      = { query := (buildLoop ss1 vs1).1 ++ s
            ++ "(" ++ joinSep ", " ((e :: es).map fun _ => "?") ++ ")"
            ++ (buildLoop ss2 vs2).1,
          params := (buildLoop ss1 vs1).2 ++ (e :: es).flatMap elemParams
            ++ (buildLoop ss2 vs2).2 }
    ∧ qCount ("(" ++ joinSep ", " ((e :: es).map fun _ => "?") ++ ")")
        = (e :: es).length
    ∧ ((∀ x ∈ e :: es, (elemParams x).length = 1)
        → ((e :: es).flatMap elemParams).length = (e :: es).length) := by
  intro ss1 s ss2 vs1 vs2 e es h
  refine ⟨?_, ?_, fun hx => flatMap_length_of_one _ _ hx⟩
  · simp only [build]
    rw [buildLoop_append ss1 vs1 (s :: ss2) (.arr (e :: es) :: vs2) h]
    simp only [buildLoop, emitValue, List.flatMap_map, elemParams]
    simp [String.append_assoc, List.append_assoc]
    rfl
  · have h0 : qCount "(" = 0 := rfl
    have h1 : qCount ")" = 0 := rfl
    simp only [qCount_append, qCount_join_marks, h0, h1]
    omega

/-- C2 (witness).  The amended statement at the template `IN ${[1, 2]}`:
two placeholders, two parameters in element order. -/
theorem C2_amended_witness :
    (([] : List String).length = ([] : List Value).length)
    ∧ build (.template ("IN " :: [])) (Value.arr (.int 1 :: [.int 2]) :: [])
        = { query := "IN (?, ?)", params := [.int 1, .int 2] } :=
  ⟨rfl, (C2_amended_array_expansion [] "IN " [] [] [] (.int 1) [.int 2] rfl).1⟩

theorem rawTemplateText_eq_interleave : ∀ (segs : List String) (vs : List Value),
    (∀ v ∈ vs, v ≠ Value.undef) →
    rawTemplateText segs vs = interleave segs (vs.map jsString) := by
  intro segs
  induction segs with
  | nil => intro vs _; rfl
  | cons s ss ih =>
    intro vs h
    cases vs with
    | nil =>
      simp only [rawTemplateText, interleave, List.map_nil]
      rw [ih [] (by simp)]
      simp [List.map_nil]
    | cons v vs =>
      have hv : v ≠ Value.undef := h v (List.mem_cons_self v vs)
      have hvs : ∀ w ∈ vs, w ≠ Value.undef := fun w hw => h w (List.mem_cons_of_mem v hw)
      cases v <;>
        first
        | exact absurd rfl hv
        | (simp only [rawTemplateText, interleave, List.map_cons]
           rw [ih vs hvs])

/-- C5 (counterexample).  The claim fails as stated for an interpolated
`undefined` value: the source's `values[i] !== undefined ? values[i] : ''`
inlines the empty string there, not the stringification `undefined`, so
`raw` on the template `a ${undefined} b` yields the text `a  b` and not
the segments interleaved with the values' string coercions. -/
theorem C5_counterexample :
    (rawTemplate ["a ", " b"] [.undef]).query = "a  b"
    ∧ (rawTemplate ["a ", " b"] [.undef]).query
        ≠ interleave ["a ", " b"] ([Value.undef].map jsString) := by
  decide

/-- C5 (amended).  For every call of `raw` in its templated form whose
interpolated values are not `undefined`, the resulting marker's text is
the concatenation of the literal segments with each interpolated value
stringified and inlined as literal text — never replaced by a
placeholder — and the marker carries no parameters (its params field is
absent); an `undefined` value is instead inlined as the empty string. -/
theorem C5_raw_template_inlines : ∀ (segs : List String) (vs : List Value),
    (∀ v ∈ vs, v ≠ Value.undef) →
    rawTemplate segs vs
      = { query := interleave segs (vs.map jsString), params := none } := by
  intro segs vs h
  unfold rawTemplate
  rw [rawTemplateText_eq_interleave segs vs h]

/-- C5 (witness).  The templated raw construction on the repository's own
example `COUNT(${"users"}) as count`: the value is inlined as text and no
parameter is produced. -/
theorem C5_witness :
    (∀ v ∈ ([.str "users"] : List Value), v ≠ Value.undef)
    ∧ rawTemplate ["COUNT(", ") as count"] [.str "users"]
        = { query := "COUNT(users) as count", params := none } := by
  have h : ∀ v ∈ ([.str "users"] : List Value), v ≠ Value.undef := by
    intro v hv
    simp only [List.mem_cons, List.not_mem_nil, or_false] at hv
    subst hv
    simp
  exact ⟨h, C5_raw_template_inlines ["COUNT(", ") as count"] [.str "users"] h⟩

/-- C6.  `fragment` returns exactly the text and parameters that `build`
produces, wrapped with the fragment tag; and a fragment interpolated into
an outer template is spliced verbatim — no surrounding parentheses — with
its parameters appended after the parameters contributed earlier in the
outer template and before those contributed later. -/
theorem C6_fragment_splice : ∀ (ss1 : List String) (s : String) (ss2 : List String)
    (vs1 vs2 : List Value) (f : FragmentSQL) (arg : BuildArg) (vs : List Value),
    ss1.length = vs1.length →
    fragment arg vs = { query := (build arg vs).query, params := (build arg vs).params }
    ∧ build (.template (ss1 ++ s :: ss2)) (vs1 ++ .fragV f :: vs2)
      = { query := (buildLoop ss1 vs1).1 ++ s ++ f.query ++ (buildLoop ss2 vs2).1,
          params := (buildLoop ss1 vs1).2 ++ f.params ++ (buildLoop ss2 vs2).2 } := by
  intro ss1 s ss2 vs1 vs2 f arg vs h
  refine ⟨rfl, ?_⟩
  simp only [build]
  rw [buildLoop_append ss1 vs1 (s :: ss2) (.fragV f :: vs2) h]
  simp [buildLoop, emitValue, String.append_assoc, List.append_assoc]

/-- C6 (witness).  The repository's own example: the fragment
`status = ${"active"} AND type = ${"user"}` spliced into
`SELECT * FROM users WHERE ${...}` — text spliced with no parentheses,
parameters in order. -/
theorem C6_witness :
    (([] : List String).length = ([] : List Value).length)
    ∧ (fragment (.template ["status = ", " AND type = ", ""]) [.str "active", .str "user"]
         = { query := "status = ? AND type = ?",
             params := [.str "active", .str "user"] }
       ∧ build (.template ["SELECT * FROM users WHERE ", ""])
           [.fragV (fragment (.template ["status = ", " AND type = ", ""])
              [.str "active", .str "user"])]
         = { query := "SELECT * FROM users WHERE status = ? AND type = ?",
             params := [.str "active", .str "user"] }) :=
  ⟨rfl, C6_fragment_splice [] "SELECT * FROM users WHERE " [""] [] []
    (fragment (.template ["status = ", " AND type = ", ""]) [.str "active", .str "user"])
    (.template ["status = ", " AND type = ", ""]) [.str "active", .str "user"] rfl⟩

/-- C8.  An empty array value interpolated into a template contributes the
literal text `(NULL)` at its position and no parameters at all. -/
theorem C8_empty_array_null : ∀ (ss1 : List String) (s : String) (ss2 : List String)
    (vs1 vs2 : List Value), ss1.length = vs1.length →
    build (.template (ss1 ++ s :: ss2)) (vs1 ++ .arr [] :: vs2)
      = { query := (buildLoop ss1 vs1).1 ++ s ++ "(NULL)" ++ (buildLoop ss2 vs2).1,
          params := (buildLoop ss1 vs1).2 ++ (buildLoop ss2 vs2).2 } := by
  intro ss1 s ss2 vs1 vs2 h
  simp only [build]
  rw [buildLoop_append ss1 vs1 (s :: ss2) (.arr [] :: vs2) h]
  simp [buildLoop, emitValue, String.append_assoc, List.append_assoc]

/-- C8 (witness).  The repository's own empty-IN-list example: the text
degrades to `(NULL)` and the parameter list is empty. -/
theorem C8_witness :
    (([] : List String).length = ([] : List Value).length)
    ∧ build (.template ["SELECT * FROM users WHERE id IN ", ""]) [.arr []]
        = { query := "SELECT * FROM users WHERE id IN (NULL)", params := [] } :=
  ⟨rfl, C8_empty_array_null [] "SELECT * FROM users WHERE id IN " [""] [] [] rfl⟩

theorem foldl_addKey_eq : ∀ (ks acc : List String),
    ks.foldl addKey acc = acc ++ (firstSeen ks).filter (fun k => decide (k ∉ acc)) := by
  intro ks
  induction ks with
  | nil => intro acc; simp [firstSeen]
  | cons k ks ih =>
    intro acc
    simp only [List.foldl_cons, firstSeen]
    rw [ih (addKey acc k)]
    by_cases hk : k ∈ acc
    · have ha : addKey acc k = acc := by simp [addKey, hk]
      have hcons : (k :: (firstSeen ks).filter (fun j => j != k)).filter
            (fun j => decide (j ∉ acc))
          = ((firstSeen ks).filter (fun j => j != k)).filter
            (fun j => decide (j ∉ acc)) := by
        simp [List.filter_cons, hk]
      rw [ha, hcons, List.filter_filter]
      congr 1
      apply List.filter_congr
      intro j _
      by_cases hj1 : j ∈ acc
      · simp [hj1]
      · have hjk : j ≠ k := fun e => hj1 (e ▸ hk)
        simp [hj1, hjk]
    · have ha : addKey acc k = acc ++ [k] := by simp [addKey, hk]
      have hcons : (k :: (firstSeen ks).filter (fun j => j != k)).filter
            (fun j => decide (j ∉ acc))
          = k :: ((firstSeen ks).filter (fun j => j != k)).filter
            (fun j => decide (j ∉ acc)) := by
        simp [List.filter_cons, hk]
      rw [ha, hcons, List.filter_filter, List.append_assoc, List.singleton_append]
      congr 2
      apply List.filter_congr
      intro j _
      by_cases hj1 : j ∈ acc
      · simp [hj1, List.mem_append]
      · by_cases hjk : j = k
        · subst hjk
          simp [hj1, List.mem_append]
        · simp [hj1, hjk, List.mem_append]

theorem foldl_rows_keys : ∀ (rows : List Row) (acc : List String),
    rows.foldl (fun a row => (row.map Prod.fst).foldl addKey a) acc
      = ((rows.flatMap fun r => r.map Prod.fst).foldl addKey acc) := by
  intro rows
  induction rows with
  | nil => intro acc; rfl
  | cons r rs ih =>
    intro acc
    simp only [List.foldl_cons, List.flatMap_cons, List.foldl_append]
    exact ih _

/-- Columns collected by `insert` are exactly the spec's first-seen union
of the rows' keys. -/
theorem collectColumns_eq_spec (rows : List Row) :
    collectColumns rows = specInsertColumns rows := by
  unfold collectColumns specInsertColumns
  rw [foldl_rows_keys, foldl_addKey_eq]
  simp

/-- C4.  For every non-empty sequence of rows, `insert` emits the column
list as the first-seen union of the rows' keys (first row's keys first,
then new keys from later rows in scan order); the output text is
`INSERT INTO table (columns) VALUES` followed by one parenthesized,
comma-separated cell group per row in input order, every group covering
every column of the union; the parameters are flattened row-major in the
shared column order; and a row lacking a key yields the `null` cell value
(which coerces to the SQL `NULL` parameter), keeping every row's value
tuple at the arity of the union. -/
theorem C4_insert_shape : ∀ (t : String) (rows : List Row), rows ≠ [] →
    insert t (.many rows)
      = .ok { query := "INSERT INTO " ++ t ++ " ("
                ++ joinSep ", " (specInsertColumns rows) ++ ") VALUES "
                ++ joinSep ", " (rows.map fun r =>
                     "(" ++ joinSep ", " ((specInsertColumns rows).map fun c =>
                        (insertCell (parseValue (rowGet r c))).1) ++ ")"),
              params := rows.flatMap fun r =>
                (specInsertColumns rows).flatMap fun c =>
                  (insertCell (parseValue (rowGet r c))).2 }
    ∧ (∀ (r : Row) (c : String), c ∉ r.map Prod.fst → rowGet r c = Value.null)
    ∧ (∀ r ∈ rows, ((specInsertColumns rows).map fun c =>
         (insertCell (parseValue (rowGet r c))).1).length
           = (specInsertColumns rows).length) := by
  intro t rows hne
  refine ⟨?_, ?_, fun r _ => List.length_map _ _⟩
  · obtain ⟨r0, rs, rfl⟩ := List.exists_cons_of_ne_nil hne
    simp only [insert, collectColumns_eq_spec, insertRowCells, List.map_map,
      List.flatMap_map]
    simp [Function.comp_def, List.map_map, insertRowCells]
  · intro r c hc
    have hfind : r.find? (fun kv => kv.1 = c) = none := by
      apply List.find?_eq_none.mpr
      intro kv hkv
      simp only [decide_eq_true_eq]
      intro hkc
      exact hc (hkc ▸ List.mem_map_of_mem Prod.fst hkv)
    simp [rowGet, hfind]

/-- C4 (witness).  The spec's own reconciliation example: three rows with
differing key sets produce the four-column union in first-seen order, each
row padded to four cells with `null` for missing keys, and twelve
parameters flattened row-major. -/
theorem C4_witness :
    (([[("name", Value.str "John"), ("age", Value.int 30)],
       [("name", Value.str "Jane"), ("age", Value.int 25), ("role", Value.str "admin")],
       [("name", Value.str "Bob"), ("status", Value.str "active")]] : List Row) ≠ [])
    ∧ insert "users" (.many
        [[("name", .str "John"), ("age", .int 30)],
         [("name", .str "Jane"), ("age", .int 25), ("role", .str "admin")],
         [("name", .str "Bob"), ("status", .str "active")]])
      = .ok { query := "INSERT INTO users (name, age, role, status) VALUES (?, ?, ?, ?), (?, ?, ?, ?), (?, ?, ?, ?)",
              params := [.str "John", .int 30, .null, .null,
                         .str "Jane", .int 25, .str "admin", .null,
                         .str "Bob", .null, .null, .str "active"] } :=
  ⟨List.cons_ne_nil _ _,
   (C4_insert_shape "users"
     [[("name", .str "John"), ("age", .int 30)],
      [("name", .str "Jane"), ("age", .int 25), ("role", .str "admin")],
      [("name", .str "Bob"), ("status", .str "active")]]
     (List.cons_ne_nil _ _)).1⟩

/-- C7.  For every input (string or raw marker) and array-of-strings rule,
`validate` succeeds exactly when the normalized marker's text is a member
of the array, returning the normalized marker (for a string input, exactly
`raw input`, never the bare string), and otherwise fails with the
disallowed-query error carrying the rejected text. -/
theorem C7_validate_allowlist : ∀ (input : Sum String RawSQL) (qs : List String),
    (validate input (.allowList qs)
       = if (normalizeInput input).query ∈ qs then .ok (normalizeInput input)
         else .error (.disallowed (normalizeInput input).query))
    ∧ (∀ s : String, normalizeInput (.inl s) = raw s) := by
  intro input qs
  refine ⟨?_, fun s => rfl⟩
  cases input with
  | inl s => simp [validate, normalizeInput, List.elem_iff]
  | inr r => simp [validate, normalizeInput, List.elem_iff]

end SqlitePrepare
